import Mathlib

/-!
Shallow embedding of the 2D flow-field dynamical-system visualizer in
src/script.js. The source holds two near-identical copies of the script; the
second copy, which adds the Particle subsystem, contains every cited
definition and is the one embedded here.

Modelling conventions. JS numbers are modelled as exact rationals. The
compiled math.js expression objects held in the dxdt and dydt fields are
opaque callables in the source and are modelled by their evaluation
semantics: a function from an evaluation scope to either a value or a thrown
evaluation error. Canvas painting is external; the drawing routines are
embedded as the sequences of geometric primitives they emit.
-/

namespace FlowField

/-- A parameter mapping (the JS object bound to the parameters field): an
association of names to numbers. -/
abbrev Params := List (String × ℚ)

/-- An evaluation scope: the JS object literal built by evaluateSystem from
x, y and the spread of the parameters object. -/
abbrev Scope := List (String × ℚ)

/-- A compiled math.js expression, i.e. the result of
math.parse(text).compile() stored in the dxdt or dydt field. It is opaque in
the source; we model it by its evaluation behaviour, where Except.error is a
thrown evaluation exception. -/
def CompiledExpr := Scope → Except Unit ℚ

/-- The scope object built by evaluateSystem: in JS a later spread entry
overrides earlier keys, and List.lookup returns the first match, so the
parameter entries are placed before the x and y defaults. -/
def mkScope (x y : ℚ) (ps : Params) : Scope :=
  ps ++ [("x", x), ("y", y)]

/-- class Particle: position, display color, trajectory, active flag. The id
field is built from the wall clock and a random number and never read by the
computational core, so it is not modelled. -/
structure Particle where
  x : ℚ
  y : ℚ
  color : String
  trajectory : List (ℚ × ℚ)
  active : Bool
deriving DecidableEq

/-- The Particle constructor: spawn at a point with a singleton trajectory,
active. -/
def Particle.spawn (x y : ℚ) (color : String) : Particle :=
  { x := x, y := y, color := color, trajectory := [(x, y)], active := true }

/-- Particle.update(dt, evaluator): early return when inactive; otherwise a
fourth-order Runge-Kutta step, an unconditional trajectory push of the new
position, and the bound check that clears the active flag when the new
position leaves the square of half-width 10. -/
def Particle.update (p : Particle) (dt : ℚ) (f : ℚ → ℚ → ℚ × ℚ) : Particle :=
  if p.active = false then p
  else
    let k1 := f p.x p.y
    let k2 := f (p.x + k1.1 * dt / 2) (p.y + k1.2 * dt / 2)
    let k3 := f (p.x + k2.1 * dt / 2) (p.y + k2.2 * dt / 2)
    let k4 := f (p.x + k3.1 * dt) (p.y + k3.2 * dt)
    let dx := (k1.1 + 2 * k2.1 + 2 * k3.1 + k4.1) / 6
    let dy := (k1.2 + 2 * k2.2 + 2 * k3.2 + k4.2) / 6
    let x' := p.x + dx * dt
    let y' := p.y + dy * dt
    let active' := if x' < -10 ∨ x' > 10 ∨ y' < -10 ∨ y' > 10 then false else p.active
    { p with x := x', y := y',
             trajectory := p.trajectory ++ [(x', y')], active := active' }

/-- The mutable state of DynamicalSystemVisualizer read and written by the
computational core. DOM handles, the canvas context, color strings for
arrows and the preset catalog are external collaborators and not modelled. -/
structure VisState where
  dxdt : Option CompiledExpr
  dydt : Option CompiledExpr
  parameters : Params
  xMin : ℚ
  xMax : ℚ
  yMin : ℚ
  yMax : ℚ
  gridDensity : ℕ
  arrowScale : ℚ
  particles : List Particle
  colorIndex : ℕ
  simulationRunning : Bool
  simulationSpeed : ℚ
  canvasWidth : ℚ
  canvasHeight : ℚ

/-- evaluateSystem(x, y): the zero vector while either equation is still
null; otherwise both compiled expressions are evaluated over the scope, and
the try/catch absorbs a thrown evaluation error from either component into
the zero vector. -/
def evaluateSystem (st : VisState) (x y : ℚ) : ℚ × ℚ :=
  match st.dxdt, st.dydt with
  | some f, some g =>
    match f (mkScope x y st.parameters), g (mkScope x y st.parameters) with
    | Except.ok dx, Except.ok dy => (dx, dy)
    | _, _ => (0, 0)
  | _, _ => (0, 0)

/-- worldToCanvasX from the source. -/
def worldToCanvasX (st : VisState) (x : ℚ) : ℚ :=
  ((x - st.xMin) / (st.xMax - st.xMin)) * st.canvasWidth

/-- worldToCanvasY from the source (canvas y axis points down). -/
def worldToCanvasY (st : VisState) (y : ℚ) : ℚ :=
  st.canvasHeight - ((y - st.yMin) / (st.yMax - st.yMin)) * st.canvasHeight

/-- canvasToWorldX from the source. -/
def canvasToWorldX (st : VisState) (cx : ℚ) : ℚ :=
  st.xMin + (cx / st.canvasWidth) * (st.xMax - st.xMin)

/-- canvasToWorldY from the source. -/
def canvasToWorldY (st : VisState) (cy : ℚ) : ℚ :=
  st.yMin + ((st.canvasHeight - cy) / st.canvasHeight) * (st.yMax - st.yMin)

/-- clearParticles(): empties the collection and resets the color index. -/
def clearParticles (st : VisState) : VisState :=
  { st with particles := [], colorIndex := 0 }

/-- updateSystem(). JSON.parse on the parameter text and
math.parse(text).compile() on each equation text are external library calls
whose outcomes are passed in as Except values. The try block assigns the
parameters field, then the dxdt field, then the dydt field, in that order,
and finally calls clearParticles(); a thrown error aborts at the failing
assignment, and the catch block only reports the error. -/
def updateSystem (st : VisState) (pr : Except Unit Params)
    (d1 d2 : Except Unit CompiledExpr) : VisState :=
  match pr with
  | Except.error _ => st
  | Except.ok p =>
    match d1 with
    | Except.error _ => { st with parameters := p }
    | Except.ok e1 =>
      match d2 with
      | Except.error _ => { st with parameters := p, dxdt := some e1 }
      | Except.ok e2 =>
        clearParticles { st with parameters := p, dxdt := some e1, dydt := some e2 }

/-- A field arrow emitted by drawFlowField: its world-space base point and
the raw evaluated field vector there. -/
structure Arrow where
  x : ℚ
  y : ℚ
  dx : ℚ
  dy : ℚ
deriving DecidableEq

/-- The candidate grid points visited by drawFlowField, in loop order: outer
index i over x, inner index j over y, both from 0 to gridDensity. -/
def gridPoints (st : VisState) : List (ℚ × ℚ) :=
  let stepX := (st.xMax - st.xMin) / (st.gridDensity : ℚ)
  let stepY := (st.yMax - st.yMin) / (st.gridDensity : ℚ)
  (List.range (st.gridDensity + 1)).flatMap fun (i : ℕ) =>
    (List.range (st.gridDensity + 1)).map fun (j : ℕ) =>
      (st.xMin + (i : ℚ) * stepX, st.yMin + (j : ℚ) * stepY)

/-- drawFlowField(): at each candidate grid point evaluate the field and emit
an arrow exactly when the magnitude, the square root of dx*dx + dy*dy, is
positive; over exact arithmetic the square root of m is positive iff m is
positive, so the guard is stated on the square of the magnitude. -/
def drawFlowField (st : VisState) : List Arrow :=
  (gridPoints st).filterMap fun q =>
    if 0 < (evaluateSystem st q.1 q.2).1 ^ 2 + (evaluateSystem st q.1 q.2).2 ^ 2
    then some ⟨q.1, q.2, (evaluateSystem st q.1 q.2).1, (evaluateSystem st q.1 q.2).2⟩
    else none

/-- The canvas-space displacement of an emitted arrow, endpoint minus base
point: the field vector divided by its magnitude and scaled by
arrowScale * 20, with the y component negated for canvas coordinates. -/
noncomputable def arrowDisp (st : VisState) (a : Arrow) : ℝ × ℝ :=
  let m : ℝ := Real.sqrt ((a.dx : ℝ) ^ 2 + (a.dy : ℝ) ^ 2)
  let s : ℝ := (st.arrowScale : ℝ) * 20
  ((a.dx : ℝ) / m * s, -((a.dy : ℝ) / m * s))

/-- The nullcline threshold test of drawNullcline at one point: the absolute
value of the chosen component (dx for isDxDt, else dy) is below 0.05. -/
def nullclineHit (st : VisState) (isDxDt : Bool) (x y : ℚ) : Bool :=
  let v := if isDxDt then (evaluateSystem st x y).1 else (evaluateSystem st x y).2
  decide (|v| < 1 / 20)

/-- The y value visited by the inner scan of drawNullcline at index j. -/
def scanYVal (st : VisState) (j : ℕ) : ℚ :=
  st.yMin + (j : ℚ) * ((st.yMax - st.yMin) / 100)

/-- The inner loop of drawNullcline, which steps y from yMin by
(yMax - yMin) / 100 while y stays at most yMax, and breaks on the first
point passing the threshold test. For yMin < yMax the loop visits exactly
the values scanYVal j for j = 0..100, counted here by the fuel argument. -/
def scanY (st : VisState) (isDxDt : Bool) (x : ℚ) : ℕ → ℕ → Option ℚ
  | _, 0 => none
  | j, fuel + 1 =>
    if nullclineHit st isDxDt x (scanYVal st j) then some (scanYVal st j)
    else scanY st isDxDt x (j + 1) fuel

/-- drawNullcline(isDxDt): one column per x = xMin + i * stepX for
i = 0..200 (resolution 200); each column contributes the point at its first
threshold hit, or nothing when the scan finds none. -/
def drawNullcline (st : VisState) (isDxDt : Bool) : List (ℚ × ℚ) :=
  let stepX := (st.xMax - st.xMin) / 200
  (List.range 201).filterMap fun (i : ℕ) =>
    let x := st.xMin + (i : ℚ) * stepX
    (scanY st isDxDt x 0 101).map fun y => (x, y)

/-- The advance-and-filter phase of simulateStep(): the forEach advances
every particle in the collection exactly once (Particle.update is the only
mutation and evaluateSystem never reads the collection, so the forEach is a
map), and the filter then drops the now-inactive particles. -/
def survivors (st : VisState) : List Particle :=
  (st.particles.map fun p =>
    p.update st.simulationSpeed (evaluateSystem st)).filter fun p => p.active

/-- simulateStep(): when the running flag is clear, return at once;
otherwise advance every particle once, keep only the still-active ones, and
either schedule another frame (when the survivor list is nonempty and some
survivor is active) or clear the running flag. The returned Bool records
whether requestAnimationFrame was called again. -/
def simulateStep (st : VisState) : VisState × Bool :=
  if st.simulationRunning = false then (st, false)
  else
    if 0 < (survivors st).length ∧ (survivors st).any fun p => p.active then
      ({ st with particles := survivors st }, true)
    else
      ({ st with particles := survivors st, simulationRunning := false }, false)

/-- A sequence of update calls applied to one particle in order. -/
def applyUpdates (p : Particle) (ops : List (ℚ × (ℚ → ℚ → ℚ × ℚ))) : Particle :=
  ops.foldl (fun q op => q.update op.1 op.2) p

/-- Modelled from the spec: the RK4 step formulas of section 4.4, stated on
a position, a time step and a field function, with componentwise
arithmetic. Used to compare Particle.update against the specified
integrator. -/
def specRK4 (x y dt : ℚ) (f : ℚ → ℚ → ℚ × ℚ) : ℚ × ℚ :=
  let k1 := f x y
  let k2 := f (x + k1.1 * dt / 2) (y + k1.2 * dt / 2)
  let k3 := f (x + k2.1 * dt / 2) (y + k2.2 * dt / 2)
  let k4 := f (x + k3.1 * dt) (y + k3.2 * dt)
  (x + dt * (k1.1 + 2 * k2.1 + 2 * k3.1 + k4.1) / 6,
   y + dt * (k1.2 + 2 * k2.2 + 2 * k3.2 + k4.2) / 6)

/-- A compiled expression that always evaluates to 1 (the equation text
"1"). -/
def exprOne : CompiledExpr := fun _ => Except.ok 1

/-- A compiled expression that always evaluates to 0 (the equation text
"0"). -/
def exprZero : CompiledExpr := fun _ => Except.ok 0

/-- A compiled expression whose evaluation always throws, as with an
identifier missing from the scope. -/
def exprFail : CompiledExpr := fun _ => Except.error ()

/-- A sample visualizer state: constant field (1, 0) over the default
viewport, one spawned particle, one named parameter. -/
def st0 : VisState :=
  { dxdt := some exprOne
    dydt := some exprZero
    parameters := [("a", 1)]
    xMin := -5, xMax := 5, yMin := -5, yMax := 5
    gridDensity := 20
    arrowScale := 1 / 2
    particles := [Particle.spawn 0 0 "#e74c3c"]
    colorIndex := 1
    simulationRunning := false
    simulationSpeed := 1 / 20
    canvasWidth := 800
    canvasHeight := 600 }

/-- C1: for every compiled System and every point, evaluateSystem substitutes
the zero vector whenever evaluation of either component expression throws at
that point. The no-exception half of the claim is carried by the embedding
itself: evaluateSystem is a total function into pairs, exactly because the
try/catch in the source converts every thrown error into the zero vector. -/
theorem evaluateSystem_absorbs_failures (st : VisState) (x y : ℚ)
    (f g : CompiledExpr) (hf : st.dxdt = some f) (hg : st.dydt = some g)
    (h : f (mkScope x y st.parameters) = Except.error () ∨
         g (mkScope x y st.parameters) = Except.error ()) :
    evaluateSystem st x y = (0, 0) := by
  unfold evaluateSystem
  rw [hf, hg]
  rcases hfe : f (mkScope x y st.parameters) with u | vf <;>
    rcases hge : g (mkScope x y st.parameters) with u' | vg <;>
      simp_all

/-- Witness for C1: a state whose dx component throws everywhere is absorbed
to the zero vector at the origin. -/
theorem evaluateSystem_absorbs_failures_witness :
    evaluateSystem { st0 with dxdt := some exprFail } 0 0 = (0, 0) :=
  evaluateSystem_absorbs_failures { st0 with dxdt := some exprFail } 0 0
    exprFail exprZero rfl rfl (Or.inl rfl)

/-- C10: before any system has been successfully compiled (either compiled
expression is still null), evaluateSystem is identically zero, and field
sampling consequently emits no arrow at all. -/
theorem evaluateSystem_uncompiled_zero (st : VisState)
    (h : st.dxdt = none ∨ st.dydt = none) :
    (∀ x y : ℚ, evaluateSystem st x y = (0, 0)) ∧ drawFlowField st = [] := by
  have hz : ∀ x y : ℚ, evaluateSystem st x y = (0, 0) := by
    intro x y
    unfold evaluateSystem
    rcases h with h | h
    · rw [h]
    · rw [h]
      rcases hd : st.dxdt with _ | f <;> rfl
  refine ⟨hz, ?_⟩
  unfold drawFlowField
  rw [List.filterMap_eq_nil_iff]
  intro q _
  rw [hz q.1 q.2]
  norm_num

/-- Witness for C10: the state with no compiled dx equation yields the zero
vector at (3, 4) and an empty arrow list. -/
theorem evaluateSystem_uncompiled_zero_witness :
    evaluateSystem { st0 with dxdt := none } 3 4 = (0, 0) ∧
    drawFlowField { st0 with dxdt := none } = [] :=
  ⟨(evaluateSystem_uncompiled_zero { st0 with dxdt := none } (Or.inl rfl)).1 3 4,
   (evaluateSystem_uncompiled_zero { st0 with dxdt := none } (Or.inl rfl)).2⟩

/-- C9: for a nondegenerate viewport and positive canvas dimensions, the
canvas-to-world projections are left inverses of the world-to-canvas
projections on each axis, under exact arithmetic. -/
theorem canvasToWorld_worldToCanvas_inverse (st : VisState) (x y : ℚ)
    (hx : st.xMin < st.xMax) (hy : st.yMin < st.yMax)
    (hw : 0 < st.canvasWidth) (hh : 0 < st.canvasHeight) :
    canvasToWorldX st (worldToCanvasX st x) = x ∧
    canvasToWorldY st (worldToCanvasY st y) = y := by
  have hx' : st.xMax - st.xMin ≠ 0 := sub_ne_zero.mpr hx.ne'
  have hy' : st.yMax - st.yMin ≠ 0 := sub_ne_zero.mpr hy.ne'
  have hw' : st.canvasWidth ≠ 0 := ne_of_gt hw
  have hh' : st.canvasHeight ≠ 0 := ne_of_gt hh
  constructor <;>
    · simp only [canvasToWorldX, worldToCanvasX, canvasToWorldY, worldToCanvasY]
      field_simp
      ring

/-- Witness for C9: the round trip at the sample state returns (1, 2). -/
theorem canvasToWorld_worldToCanvas_inverse_witness :
    canvasToWorldX st0 (worldToCanvasX st0 1) = 1 ∧
    canvasToWorldY st0 (worldToCanvasY st0 2) = 2 :=
  canvasToWorld_worldToCanvas_inverse st0 1 2 (by decide) (by decide)
    (by decide) (by decide)

/-- C7: a successful update-system action (parameter text and both equation
texts all parse) leaves the particle collection empty, whatever it held
before. -/
theorem updateSystem_success_clears_particles (st : VisState) (p : Params)
    (e1 e2 : CompiledExpr) :
    (updateSystem st (Except.ok p) (Except.ok e1) (Except.ok e2)).particles = [] :=
  rfl

/-- C6 counterexample: the claim says a failed update leaves the previously
valid System, parameter mapping included, exactly as it was; but when the
parameter text parses and the dx equation then fails to compile, the
parameters field has already been overwritten before the throw. -/
theorem updateSystem_failure_counterexample :
    (updateSystem st0 (Except.ok [("a", 2)])
        (Except.error ()) (Except.error ())).parameters ≠ st0.parameters := by
  decide

/-- C6 amended: on a failed update the particle collection is always left
unchanged, and only the fields assigned before the failing step are
replaced: a parameter-parse failure leaves the whole state unchanged, a dx
compile failure leaves both compiled equations but installs the new
parameters, and a dy compile failure additionally installs the new dx
expression while keeping the previous dy expression. -/
theorem updateSystem_failure_preservation (st : VisState) (p : Params)
    (e1 : CompiledExpr) (d1 d2 : Except Unit CompiledExpr) :
    (updateSystem st (Except.error ()) d1 d2 = st) ∧
    ((updateSystem st (Except.ok p) (Except.error ()) d2).parameters = p ∧
     (updateSystem st (Except.ok p) (Except.error ()) d2).dxdt = st.dxdt ∧
     (updateSystem st (Except.ok p) (Except.error ()) d2).dydt = st.dydt ∧
     (updateSystem st (Except.ok p) (Except.error ()) d2).particles = st.particles) ∧
    ((updateSystem st (Except.ok p) (Except.ok e1) (Except.error ())).parameters = p ∧
     (updateSystem st (Except.ok p) (Except.ok e1) (Except.error ())).dxdt = some e1 ∧
     (updateSystem st (Except.ok p) (Except.ok e1) (Except.error ())).dydt = st.dydt ∧
     (updateSystem st (Except.ok p) (Except.ok e1) (Except.error ())).particles
        = st.particles) :=
  ⟨rfl, ⟨rfl, rfl, rfl, rfl⟩, ⟨rfl, rfl, rfl, rfl⟩⟩

/-- A sample evaluator: the constant field (1, 0). -/
def fC : ℚ → ℚ → ℚ × ℚ := fun _ _ => (1, 0)

/-- A sample active particle at the origin. -/
def pC : Particle := Particle.spawn 0 0 "#e74c3c"

/-- A sample active particle already close to the bound. -/
def pFar : Particle := Particle.spawn (199 / 20) 0 "#3498db"

/-- A sample inactive particle. -/
def pDead : Particle := { pC with active := false }

/-- C2: one update of an active particle moves it to exactly the position of
the classical fourth-order Runge-Kutta step of the spec (specRK4), appends
that position to the trajectory unconditionally (the bound check runs only
after the push, so an exiting particle still records its exit point), and
leaves every earlier trajectory entry unchanged. -/
theorem update_rk4_step (p : Particle) (dt : ℚ) (f : ℚ → ℚ → ℚ × ℚ)
    (h : p.active = true) :
    (p.update dt f).x = (specRK4 p.x p.y dt f).1 ∧
    (p.update dt f).y = (specRK4 p.x p.y dt f).2 ∧
    (p.update dt f).trajectory
      = p.trajectory ++ [((specRK4 p.x p.y dt f).1, (specRK4 p.x p.y dt f).2)] ∧
    (p.update dt f).trajectory.take p.trajectory.length = p.trajectory := by
  have hx : (p.update dt f).x = (specRK4 p.x p.y dt f).1 := by
    simp only [Particle.update, specRK4, h]
    norm_num
    ring
  have hy : (p.update dt f).y = (specRK4 p.x p.y dt f).2 := by
    simp only [Particle.update, specRK4, h]
    norm_num
    ring
  have ht : (p.update dt f).trajectory
      = p.trajectory ++ [((specRK4 p.x p.y dt f).1, (specRK4 p.x p.y dt f).2)] := by
    simp only [Particle.update, specRK4, h]
    norm_num
    constructor <;> ring
  refine ⟨hx, hy, ht, ?_⟩
  rw [ht, List.take_left]

/-- Witness for C2: the RK4 step of the sample particle under the constant
field (1, 0) with dt = 1/20. -/
theorem update_rk4_step_witness :
    (pC.update (1 / 20) fC).x = (specRK4 pC.x pC.y (1 / 20) fC).1 ∧
    (pC.update (1 / 20) fC).y = (specRK4 pC.x pC.y (1 / 20) fC).2 ∧
    (pC.update (1 / 20) fC).trajectory
      = pC.trajectory
        ++ [((specRK4 pC.x pC.y (1 / 20) fC).1, (specRK4 pC.x pC.y (1 / 20) fC).2)] ∧
    (pC.update (1 / 20) fC).trajectory.take pC.trajectory.length = pC.trajectory :=
  update_rk4_step pC (1 / 20) fC rfl

/-- C5: after an update of an active particle the active flag is false
exactly when the new position leaves the bound 10 in either coordinate; an
update of an inactive particle changes nothing at all; an update never turns
the flag from false to true; and hence no sequence of updates reactivates an
inactive particle. -/
theorem deactivationTest (a b : ℚ) :
    ((if a < -10 ∨ a > 10 ∨ b < -10 ∨ b > 10 then false else true) = false)
      ↔ (10 < |a| ∨ 10 < |b|) := by
  rw [lt_abs, lt_abs]
  by_cases hc : a < -10 ∨ a > 10 ∨ b < -10 ∨ b > 10
  · rw [if_pos hc]
    refine ⟨fun _ => ?_, fun _ => rfl⟩
    rcases hc with hc | hc | hc | hc
    · exact Or.inl (Or.inr (by linarith))
    · exact Or.inl (Or.inl hc)
    · exact Or.inr (Or.inr (by linarith))
    · exact Or.inr (Or.inl hc)
  · rw [if_neg hc]
    push_neg at hc
    obtain ⟨h1, h2, h3, h4⟩ := hc
    constructor
    · intro hfalse
      exact absurd hfalse (by simp)
    · rintro ((hx | hx) | (hx | hx))
      · exact absurd hx (not_lt.mpr h2)
      · exact absurd hx (not_lt.mpr (by linarith))
      · exact absurd hx (not_lt.mpr h4)
      · exact absurd hx (not_lt.mpr (by linarith))

theorem update_active_invariant (p : Particle) (dt : ℚ) (f : ℚ → ℚ → ℚ × ℚ) :
    (p.active = true →
      ((p.update dt f).active = false ↔
        10 < |(p.update dt f).x| ∨ 10 < |(p.update dt f).y|)) ∧
    (p.active = false → p.update dt f = p) ∧
    ((p.update dt f).active = true → p.active = true) ∧
    (p.active = false → ∀ ops : List (ℚ × (ℚ → ℚ → ℚ × ℚ)), applyUpdates p ops = p) := by
  have hdead : ∀ (dt' : ℚ) (f' : ℚ → ℚ → ℚ × ℚ),
      p.active = false → p.update dt' f' = p := by
    intro dt' f' h
    simp only [Particle.update, h]
    rfl
  have hiff : p.active = true →
      ((p.update dt f).active = false ↔
        10 < |(p.update dt f).x| ∨ 10 < |(p.update dt f).y|) := by
    intro h
    have hproj : (p.update dt f).active
        = (if (p.update dt f).x < -10 ∨ (p.update dt f).x > 10 ∨
              (p.update dt f).y < -10 ∨ (p.update dt f).y > 10
           then false else true) := by
      simp only [Particle.update, h]
      norm_num
    rw [hproj]
    exact deactivationTest _ _
  have hmono : (p.update dt f).active = true → p.active = true := by
    intro h
    by_cases hp : p.active = true
    · exact hp
    · rw [hdead dt f (by simpa using hp)] at h
      exact h
  refine ⟨hiff, hdead dt f, hmono, ?_⟩
  intro h ops
  induction ops with
  | nil => rfl
  | cons op rest ih =>
    unfold applyUpdates at ih ⊢
    simp only [List.foldl_cons]
    rw [hdead op.1 op.2 h]
    exact ih

/-- Witness for C5: a particle near the edge exits under the constant field
and the deactivation test reads back from its new position; an inactive
particle is untouched by one update and by a two-step update sequence. -/
theorem update_active_invariant_witness :
    ((pFar.update (1 / 20) fC).active = false ↔
      10 < |(pFar.update (1 / 20) fC).x| ∨ 10 < |(pFar.update (1 / 20) fC).y|) ∧
    (pDead.update (1 / 20) fC = pDead) ∧
    applyUpdates pDead [(1 / 20, fC), (1, fC)] = pDead :=
  ⟨(update_active_invariant pFar (1 / 20) fC).1 rfl,
   (update_active_invariant pDead (1 / 20) fC).2.1 rfl,
   (update_active_invariant pDead (1 / 20) fC).2.2.2 rfl [(1 / 20, fC), (1, fC)]⟩

/-- C8: on a running state, one simulation tick advances every particle in
the collection exactly once and then removes the now-inactive ones (the
resulting collection is exactly the filtered once-advanced list, in which
every particle is active); another tick is scheduled if and only if some
particle remains active; and the tick is not re-scheduled exactly when the
running flag has been cleared. -/
theorem simulateStep_spec (st : VisState) (h : st.simulationRunning = true) :
    ((simulateStep st).1.particles =
      (st.particles.map fun p =>
        p.update st.simulationSpeed (evaluateSystem st)).filter fun p => p.active) ∧
    (∀ p ∈ (simulateStep st).1.particles, p.active = true) ∧
    ((simulateStep st).2 = true ↔
      ∃ p ∈ (simulateStep st).1.particles, p.active = true) ∧
    ((simulateStep st).2 = false ↔ (simulateStep st).1.simulationRunning = false) := by
  have hrun : ¬ (st.simulationRunning = false) := by rw [h]; simp
  by_cases hc : 0 < (survivors st).length ∧ (survivors st).any fun p => p.active
  · have hstep : simulateStep st = ({ st with particles := survivors st }, true) := by
      unfold simulateStep
      rw [if_neg hrun, if_pos hc]
    rw [hstep]
    refine ⟨rfl, ?_, ?_, ?_⟩
    · intro p hp
      exact (List.mem_filter.mp hp).2
    · constructor
      · intro _
        obtain ⟨p, hp, hpa⟩ := List.any_eq_true.mp hc.2
        exact ⟨p, hp, hpa⟩
      · intro _
        rfl
    · simp [h]
  · have hstep : simulateStep st
        = ({ st with particles := survivors st, simulationRunning := false }, false) := by
      unfold simulateStep
      rw [if_neg hrun, if_neg hc]
    rw [hstep]
    refine ⟨rfl, ?_, ?_, ?_⟩
    · intro p hp
      exact (List.mem_filter.mp hp).2
    · constructor
      · intro hfalse
        exact absurd hfalse (by simp)
      · rintro ⟨p, hp, hpa⟩
        exact absurd ⟨List.length_pos_of_mem hp, List.any_eq_true.mpr ⟨p, hp, hpa⟩⟩ hc
    · exact ⟨fun _ => rfl, fun _ => rfl⟩

/-- A running sample state with one live particle, used to witness C8. -/
def st1 : VisState := { st0 with simulationRunning := true }

/-- Witness for C8: on the running sample state the tick keeps its one
in-bounds particle and schedules another frame exactly because an active
particle remains. -/
theorem simulateStep_spec_witness :
    (simulateStep st1).2 = true ↔
      ∃ p ∈ (simulateStep st1).1.particles, p.active = true :=
  (simulateStep_spec st1 rfl).2.2.1

/-- The y scan of drawNullcline returns the first index passing the
threshold test: a hit at the returned index and misses strictly before it
(within the scanned window). -/
theorem scanY_some_first (st : VisState) (b : Bool) (x : ℚ) :
    ∀ (fuel j : ℕ) (y : ℚ), scanY st b x j fuel = some y →
      ∃ k : ℕ, j ≤ k ∧ k < j + fuel ∧ y = scanYVal st k ∧
        nullclineHit st b x (scanYVal st k) = true ∧
        ∀ m : ℕ, j ≤ m → m < k → nullclineHit st b x (scanYVal st m) = false := by
  intro fuel
  induction fuel with
  | zero =>
    intro j y hy
    simp [scanY] at hy
  | succ n ih =>
    intro j y hy
    unfold scanY at hy
    by_cases hh : nullclineHit st b x (scanYVal st j) = true
    · rw [if_pos hh] at hy
      injection hy with hy
      refine ⟨j, le_refl j, by omega, hy.symm, hh, ?_⟩
      intro m hm1 hm2
      omega
    · rw [if_neg hh] at hy
      obtain ⟨k, hk1, hk2, hk3, hk4, hk5⟩ := ih (j + 1) y hy
      refine ⟨k, by omega, by omega, hk3, hk4, ?_⟩
      intro m hm1 hm2
      rcases hm1.lt_or_eq with hlt | heq
      · exact hk5 m hlt hm2
      · rw [← heq]
        simp only [Bool.not_eq_true] at hh
        exact hh

/-- When the y scan of drawNullcline finds nothing, no index in the scanned
window passes the threshold test. -/
theorem scanY_none_miss (st : VisState) (b : Bool) (x : ℚ) :
    ∀ (fuel j : ℕ), scanY st b x j fuel = none →
      ∀ m : ℕ, j ≤ m → m < j + fuel → nullclineHit st b x (scanYVal st m) = false := by
  intro fuel
  induction fuel with
  | zero =>
    intro j _ m hm1 hm2
    omega
  | succ n ih =>
    intro j hy m hm1 hm2
    unfold scanY at hy
    by_cases hh : nullclineHit st b x (scanYVal st j) = true
    · rw [if_pos hh] at hy
      cases hy
    · rw [if_neg hh] at hy
      rcases hm1.lt_or_eq with hlt | heq
      · exact ih (j + 1) hy m hlt (by omega)
      · rw [← heq]
        simp only [Bool.not_eq_true] at hh
        exact hh

/-- drawNullcline unfolded to its filterMap form. -/
theorem drawNullcline_eq (st : VisState) (isDxDt : Bool) :
    drawNullcline st isDxDt
      = (List.range 201).filterMap fun (i : ℕ) =>
          (scanY st isDxDt (st.xMin + (i : ℚ) * ((st.xMax - st.xMin) / 200)) 0 101).map
            fun y => (st.xMin + (i : ℚ) * ((st.xMax - st.xMin) / 200), y) :=
  rfl

/-- C4: nullcline extraction emits at most one point for each of the 201
columns; every emitted point sits on one of the column x values with its y
taken from that column's scan; a scan that returns a point returns the
first of the 101 scanned y values whose component passes the 0.05
threshold; and a column whose scan finds nothing has no passing y at all,
so it contributes no point. -/
theorem drawNullcline_first_hit (st : VisState) (isDxDt : Bool) :
    (drawNullcline st isDxDt).length ≤ 201 ∧
    (∀ q ∈ drawNullcline st isDxDt, ∃ i : ℕ, i ≤ 200 ∧
      q.1 = st.xMin + (i : ℚ) * ((st.xMax - st.xMin) / 200) ∧
      scanY st isDxDt q.1 0 101 = some q.2) ∧
    (∀ x y : ℚ, scanY st isDxDt x 0 101 = some y →
      ∃ j : ℕ, j ≤ 100 ∧ y = scanYVal st j ∧
        nullclineHit st isDxDt x (scanYVal st j) = true ∧
        ∀ m : ℕ, m < j → nullclineHit st isDxDt x (scanYVal st m) = false) ∧
    (∀ x : ℚ, scanY st isDxDt x 0 101 = none →
      ∀ j : ℕ, j ≤ 100 → nullclineHit st isDxDt x (scanYVal st j) = false) := by
  refine ⟨?_, ?_, ?_, ?_⟩
  · rw [drawNullcline_eq]
    exact le_trans (List.length_filterMap_le _ _) (le_of_eq (List.length_range 201))
  · intro q hq
    rw [drawNullcline_eq, List.mem_filterMap] at hq
    obtain ⟨i, hi, hsome⟩ := hq
    rw [List.mem_range] at hi
    rw [Option.map_eq_some'] at hsome
    obtain ⟨y, hscan, hqy⟩ := hsome
    refine ⟨i, by omega, ?_, ?_⟩
    · rw [← hqy]
    · rw [← hqy]
      simpa using hscan
  · intro x y hy
    obtain ⟨k, _, hk2, hk3, hk4, hk5⟩ := scanY_some_first st isDxDt x 101 0 y hy
    exact ⟨k, by omega, hk3, hk4, fun m hm => hk5 m (Nat.zero_le m) hm⟩
  · intro x hn j hj
    exact scanY_none_miss st isDxDt x 101 0 hn j (Nat.zero_le j) (by omega)

/-- The sample state's y scan of the dy component (identically 0) hits at
its very first y value, scanYVal st0 0 = -5. -/
theorem scanY_st0_first_column : scanY st0 false (-5) 0 101 = some (-5) := by
  have hval : scanYVal st0 0 = -5 := by
    unfold scanYVal st0
    norm_num
  have hhit : nullclineHit st0 false (-5) (scanYVal st0 0) = true := by
    rw [hval]
    have he : evaluateSystem st0 (-5) (-5) = (1, 0) := rfl
    simp only [nullclineHit, he, Bool.false_eq_true, if_false, decide_eq_true_eq]
    norm_num
  calc scanY st0 false (-5) 0 101
      = if nullclineHit st0 false (-5) (scanYVal st0 0)
        then some (scanYVal st0 0) else scanY st0 false (-5) 1 100 := rfl
    _ = some (scanYVal st0 0) := by rw [hhit]; rfl
    _ = some (-5) := by rw [hval]

/-- Witness for C4: on the sample state the dy component is identically 0,
so the scan of the first column (x = -5) hits at its very first y value. -/
theorem drawNullcline_first_hit_witness :
    ∃ j : ℕ, j ≤ 100 ∧ (-5 : ℚ) = scanYVal st0 j ∧
      nullclineHit st0 false (-5) (scanYVal st0 j) = true ∧
      ∀ m : ℕ, m < j → nullclineHit st0 false (-5) (scanYVal st0 m) = false :=
  (drawNullcline_first_hit st0 false).2.2.1 (-5) (-5) scanY_st0_first_column

/-- C3 amended: sampling visits exactly the (gridDensity + 1) squared
candidate grid points xMin + i * stepX, yMin + j * stepY for i, j up to
gridDensity; the points producing arrows form the subset (not in general a
strict one) of exactly those with a field vector of nonzero magnitude; and
every emitted arrow displacement has squared length equal to the square of
arrowScale * 20, independent of the field magnitude. -/
theorem flowField_sampling_spec (st : VisState) :
    (gridPoints st).length = (st.gridDensity + 1) ^ 2 ∧
    (∀ q : ℚ × ℚ, q ∈ gridPoints st ↔ ∃ i ≤ st.gridDensity, ∃ j ≤ st.gridDensity,
      q = (st.xMin + (i : ℚ) * ((st.xMax - st.xMin) / (st.gridDensity : ℚ)),
           st.yMin + (j : ℚ) * ((st.yMax - st.yMin) / (st.gridDensity : ℚ)))) ∧
    (∀ a ∈ drawFlowField st,
      (a.x, a.y) ∈ gridPoints st ∧ evaluateSystem st a.x a.y = (a.dx, a.dy) ∧
      0 < a.dx ^ 2 + a.dy ^ 2) ∧
    (∀ q ∈ gridPoints st,
      0 < (evaluateSystem st q.1 q.2).1 ^ 2 + (evaluateSystem st q.1 q.2).2 ^ 2 →
      (⟨q.1, q.2, (evaluateSystem st q.1 q.2).1, (evaluateSystem st q.1 q.2).2⟩ : Arrow)
        ∈ drawFlowField st) ∧
    (∀ a ∈ drawFlowField st,
      (arrowDisp st a).1 ^ 2 + (arrowDisp st a).2 ^ 2 = ((st.arrowScale : ℝ) * 20) ^ 2) := by
  have harrow : ∀ a ∈ drawFlowField st,
      (a.x, a.y) ∈ gridPoints st ∧ evaluateSystem st a.x a.y = (a.dx, a.dy) ∧
      0 < a.dx ^ 2 + a.dy ^ 2 := by
    intro a ha
    unfold drawFlowField at ha
    rw [List.mem_filterMap] at ha
    obtain ⟨q, hq, hfa⟩ := ha
    by_cases hpos :
        0 < (evaluateSystem st q.1 q.2).1 ^ 2 + (evaluateSystem st q.1 q.2).2 ^ 2
    · rw [if_pos hpos] at hfa
      injection hfa with hfa
      rw [← hfa]
      refine ⟨?_, ?_, hpos⟩
      · rw [Prod.mk.eta]
        exact hq
      · rw [Prod.mk.eta]
    · rw [if_neg hpos] at hfa
      cases hfa
  refine ⟨?_, ?_, harrow, ?_, ?_⟩
  · unfold gridPoints
    rw [List.length_flatMap]
    simp only [Function.comp_def, List.length_map, List.length_range]
    rw [List.map_const', List.sum_replicate, List.length_range, smul_eq_mul, sq]
  · intro q
    unfold gridPoints
    simp only [List.mem_flatMap, List.mem_map, List.mem_range]
    constructor
    · rintro ⟨i, hi, j, hj, rfl⟩
      exact ⟨i, by omega, j, by omega, rfl⟩
    · rintro ⟨i, hi, j, hj, rfl⟩
      exact ⟨i, by omega, j, by omega, rfl⟩
  · intro q hq hpos
    unfold drawFlowField
    rw [List.mem_filterMap]
    exact ⟨q, hq, by rw [if_pos hpos]⟩
  · intro a ha
    have hpos := (harrow a ha).2.2
    have hpos' : (0 : ℝ) < (a.dx : ℝ) ^ 2 + (a.dy : ℝ) ^ 2 := by
      exact_mod_cast hpos
    simp only [arrowDisp]
    set m := Real.sqrt ((a.dx : ℝ) ^ 2 + (a.dy : ℝ) ^ 2) with hm
    have hm2 : m ^ 2 = (a.dx : ℝ) ^ 2 + (a.dy : ℝ) ^ 2 := Real.sq_sqrt hpos'.le
    have hm0 : m ≠ 0 := ne_of_gt (Real.sqrt_pos.mpr hpos')
    have hexp : ((a.dx : ℝ) / m * ((st.arrowScale : ℝ) * 20)) ^ 2
        + (-((a.dy : ℝ) / m * ((st.arrowScale : ℝ) * 20))) ^ 2
        = ((a.dx : ℝ) ^ 2 + (a.dy : ℝ) ^ 2) / m ^ 2 * ((st.arrowScale : ℝ) * 20) ^ 2 := by
      field_simp
      ring
    rw [hexp, hm2, div_self (ne_of_gt hpos'), one_mul]

/-- Witness for C3: the candidate grid of the sample state (grid density 20)
has exactly 441 points. -/
theorem flowField_sampling_spec_witness :
    (gridPoints st0).length = (st0.gridDensity + 1) ^ 2 :=
  (flowField_sampling_spec st0).1

/-- The sample state with grid density 1: a 2 by 2 candidate grid under the
everywhere-nonzero constant field (1, 0). -/
def stC3 : VisState := { st0 with gridDensity := 1 }

/-- C3 counterexample: the claim calls the arrow-producing points a strict
subset of the candidate grid points; under the constant field (1, 0) every
candidate point produces an arrow, so the two point sets coincide and the
inclusion is not strict. -/
theorem flowField_strict_subset_counterexample :
    ¬ (((drawFlowField stC3).map fun a => (a.x, a.y)).toFinset
        ⊂ (gridPoints stC3).toFinset) := by
  have hconst : ∀ q : ℚ × ℚ,
      (if 0 < (evaluateSystem stC3 q.1 q.2).1 ^ 2 + (evaluateSystem stC3 q.1 q.2).2 ^ 2
       then some (⟨q.1, q.2, (evaluateSystem stC3 q.1 q.2).1,
                   (evaluateSystem stC3 q.1 q.2).2⟩ : Arrow)
       else none) = some ⟨q.1, q.2, 1, 0⟩ := by
    intro q
    have he : evaluateSystem stC3 q.1 q.2 = (1, 0) := rfl
    rw [he]
    norm_num
  have hlist : drawFlowField stC3
      = (gridPoints stC3).map fun q => (⟨q.1, q.2, 1, 0⟩ : Arrow) := by
    unfold drawFlowField
    calc (gridPoints stC3).filterMap (fun q =>
          if 0 < (evaluateSystem stC3 q.1 q.2).1 ^ 2 + (evaluateSystem stC3 q.1 q.2).2 ^ 2
          then some ⟨q.1, q.2, (evaluateSystem stC3 q.1 q.2).1,
                     (evaluateSystem stC3 q.1 q.2).2⟩
          else none)
        = (gridPoints stC3).filterMap
            (some ∘ fun q => (⟨q.1, q.2, 1, 0⟩ : Arrow)) :=
          List.filterMap_congr fun q _ => hconst q
      _ = (gridPoints stC3).map fun q => (⟨q.1, q.2, 1, 0⟩ : Arrow) := by
          rw [List.filterMap_eq_map]
  have hpoints : ((drawFlowField stC3).map fun a => (a.x, a.y)) = gridPoints stC3 := by
    rw [hlist, List.map_map]
    simp [Function.comp_def, Prod.mk.eta]
  rw [hpoints]
  exact ssubset_irrefl _

end FlowField
